import Mathlib

/-!
Verification of the Audio Extractor task pipeline.

The definitions below are shallow embeddings of the Python source:
* the in-memory progress store and its operations (`main.py`),
* the terminal-outcome handlers of `separate_audio_endpoint` (`main.py`),
* the BPM planner `optimize_bpm_target` (`mixing.py`),
* the chunked progress/cancellation adapter `CustomTqdm.update`
  (`audio_processor.py`),
* the key-detection scan of `analyze_track` (`analysis.py`).

Python floats are modelled as rationals (reals where a square root is
taken); NumPy NaN, where it can arise, is modelled as `Option.none`.
-/

set_option autoImplicit false

namespace AudioExtractor

/-! ## The in-memory progress store (`main.py:33-35`) -/

/-- One value of `PROGRESS_STORE` (`main.py:33-35`):
`{"progress": int(0-100), "status": str}`. -/
structure TaskEntry where
  progress : Int
  status : String
deriving DecidableEq, Repr

/-- `PROGRESS_STORE`, a Python dict from task id to entry, modelled as an
association list in insertion order. -/
abbrev ProgressStore := List (String × TaskEntry)

/-- Dict lookup, `PROGRESS_STORE.get(task_id)`. -/
def storeGet : ProgressStore → String → Option TaskEntry
  | [], _ => none
  | (k, e) :: rest, id => if k = id then some e else storeGet rest id

/-- Dict membership, `task_id in PROGRESS_STORE`. -/
def storeContains (s : ProgressStore) (id : String) : Bool :=
  (storeGet s id).isSome

/-- In-place mutation of the entry under one key, as in
`PROGRESS_STORE[task_id]["status"] = …`. -/
def storeModify : ProgressStore → String → (TaskEntry → TaskEntry) → ProgressStore
  | [], _, _ => []
  | (k, e) :: rest, id, f =>
    if k = id then (k, f e) :: storeModify rest id f
    else (k, e) :: storeModify rest id f

/-- Dict assignment `PROGRESS_STORE[task_id] = entry`: overwrites in place when
the key is present, appends otherwise. -/
def storeInsert (s : ProgressStore) (id : String) (e : TaskEntry) : ProgressStore :=
  if storeContains s id then storeModify s id (fun _ => e) else s ++ [(id, e)]

/-- Dict deletion, `del PROGRESS_STORE[task_id]`. -/
def storeErase : ProgressStore → String → ProgressStore
  | [], _ => []
  | (k, e) :: rest, id =>
    if k = id then storeErase rest id else (k, e) :: storeErase rest id

/-- The unknown-id default of `get_progress` (`main.py:46`):
`{"progress": 0, "status": "pending"}`. -/
def defaultProgress : TaskEntry := ⟨0, "pending"⟩

/-- `get_progress` (`main.py:43-46`): the stored entry, or the default shape
for an unknown id. -/
def get_progress (s : ProgressStore) (id : String) : TaskEntry :=
  (storeGet s id).getD defaultProgress

/-- `cancel_task` (`main.py:48-54`): when the task is present its status is set
to `"cancelled"` and the endpoint answers success (HTTP 200, modelled `true`);
otherwise it answers not-found (HTTP 404, modelled `false`).  The current
status is not inspected. -/
def cancel_task (s : ProgressStore) (id : String) : ProgressStore × Bool :=
  if storeContains s id then
    (storeModify s id (fun e => { e with status := "cancelled" }), true)
  else (s, false)

/-- Python `int()` on a float: truncation toward zero. -/
def pyInt (q : ℚ) : Int := if 0 ≤ q then ⌊q⌋ else ⌈q⌉

/-- The `update_progress` callback (`main.py:137-141`): when the task is
present and its status is not `"cancelled"`, store `int(p)` as the new
progress; otherwise do nothing. -/
def update_progress (s : ProgressStore) (id : String) (p : ℚ) : ProgressStore :=
  match storeGet s id with
  | some e =>
    if e.status ≠ "cancelled" then
      storeModify s id (fun e => { e with progress := pyInt p })
    else s
  | none => s

/-- `main.py:71-72`: `if not task_id: task_id = "default"` — `None` and the
empty string are the falsy `str` values. -/
def resolveTaskId : Option String → String
  | none => "default"
  | some s => if s = "" then "default" else s

/-- `main.py:83`: `PROGRESS_STORE[task_id] = {"progress": 0, "status":
"uploading"}` at the start of `separate_audio_endpoint`. -/
def initTask (s : ProgressStore) (id : String) : ProgressStore :=
  storeInsert s id ⟨0, "uploading"⟩

/-! ## Terminal branches of `separate_audio_endpoint` (`main.py:160-235`) -/

/-- File-system side effects performed by one terminal branch of
`separate_audio_endpoint`. -/
structure FileEffects where
  inputDeleted : Bool
  outputDirDeleted : Bool
deriving DecidableEq, Repr

/-- The `CancellationException` handler (`main.py:199-224`): removes the task
from the store, unlinks the partial input file and removes the task's output
directory, then answers HTTP 499. -/
def cancelledHandler (s : ProgressStore) (id : String) : ProgressStore × FileEffects :=
  (storeErase s id, ⟨true, true⟩)

/-- The generic `Exception` handler — the `Failed` terminal outcome
(`main.py:230-235`): removes the task from the store and re-raises as
HTTP 500.  No file or directory deletion is performed on this path. -/
def failedHandler (s : ProgressStore) (id : String) : ProgressStore × FileEffects :=
  (storeErase s id, ⟨false, false⟩)

/-- The success finalization (`main.py:160-197`): the response stems are built
from `stems_dict`, the task is deleted from the store (`main.py:182-184`), the
input file is unlinked, and only then is the response returned.  The returned
list stands for the response body's stem entries. -/
def successFinalize (s : ProgressStore) (id : String) (stems : List String) :
    ProgressStore × List String :=
  (storeErase s id, stems)

/-! ## The BPM planner (`mixing.py:25-58`) -/

/-- The stretch distance of one candidate (`mixing.py:48-52`):
`candidate = target_bpm * m`, `diff = |candidate / source_bpm - 1|`. -/
def stretchDiff (source_bpm target_bpm m : ℚ) : ℚ :=
  |target_bpm * m / source_bpm - 1|

/-- One iteration of the multiplier loop of `optimize_bpm_target`
(`mixing.py:47-56`), acting on the accumulator `(min_diff_ratio, best_target)`;
`float('inf')` is modelled as `⊤` of `WithTop ℚ`. -/
def bpmStep (source_bpm target_bpm : ℚ) (acc : WithTop ℚ × ℚ) (m : ℚ) :
    WithTop ℚ × ℚ :=
  if (stretchDiff source_bpm target_bpm m : WithTop ℚ) < acc.1 then
    ((stretchDiff source_bpm target_bpm m : WithTop ℚ), target_bpm * m)
  else acc

/-- `optimize_bpm_target` (`mixing.py:25-58`): for non-positive inputs the
requested target is returned unchanged; otherwise the multipliers
`[0.5, 1.0, 2.0]` are scanned in order starting from
`min_diff_ratio = inf, best_target = target_bpm`, keeping the candidate whose
stretch ratio is strictly closer to 1 than every earlier one. -/
def optimize_bpm_target (source_bpm target_bpm : ℚ) : ℚ :=
  if target_bpm ≤ 0 ∨ source_bpm ≤ 0 then target_bpm
  else
    (([0.5, 1.0, 2.0] : List ℚ).foldl (bpmStep source_bpm target_bpm)
      ((⊤ : WithTop ℚ), target_bpm)).2

/-- Modelled from the spec's words (§4.5, §8): the effective target is
`requestedTargetBpm` times the first multiplier in scan order
`{0.5, 1.0, 2.0}` achieving the minimum of `|target*m/source - 1|`, as a
closed form, to be compared with `optimize_bpm_target`. -/
def bpmPlannerSpec (source_bpm target_bpm : ℚ) : ℚ :=
  if stretchDiff source_bpm target_bpm 0.5 ≤ stretchDiff source_bpm target_bpm 1.0 ∧
      stretchDiff source_bpm target_bpm 0.5 ≤ stretchDiff source_bpm target_bpm 2.0 then
    target_bpm * 0.5
  else if stretchDiff source_bpm target_bpm 1.0 ≤ stretchDiff source_bpm target_bpm 2.0 then
    target_bpm * 1.0
  else target_bpm * 2.0

/-! ## The chunked progress/cancellation adapter (`audio_processor.py:82-104`) -/

/-- The state of the `CustomTqdm` progress bar: the chunk counter `n` and the
(possibly unknown) chunk total.  `total = none` models `total=None`. -/
structure TqdmState where
  n : ℕ
  total : Option ℕ
deriving DecidableEq, Repr

/-- `CustomTqdm.update` (`audio_processor.py:90-104`): the cancel flag is
checked BEFORE counting the chunk and `CancellationException` (modelled
`Except.error ()`) is raised when it is set; otherwise `n` advances and, when
the total is known (truthy — Python's `if self.total:` also skips a zero
total), `percentage = n / total * 100` is handed to the progress callback.
The reported value is returned as `some`; `none` means no report was made. -/
def tqdmUpdate (st : TqdmState) (cancelled : Bool) (inc : ℕ) :
    Except Unit (TqdmState × Option ℚ) :=
  if cancelled then .error ()
  else
    let n' := st.n + inc
    let report : Option ℚ :=
      match st.total with
      | some t => if t ≠ 0 then some ((n' : ℚ) / t * 100) else none
      | none => none
    .ok (⟨n', st.total⟩, report)

/-- Driving the adapter through `k` chunks of the wrapped computation, one
`update(1)` per chunk as in the separator's chunk loop; `cancelFlag n` is the
cancellation state observed before processing chunk `n+1`.  Returns the
reported percentages in order and whether a cancellation was raised (a raise
abandons all remaining chunks). -/
def runAdapter (cancelFlag : ℕ → Bool) : ℕ → TqdmState → List ℚ × Bool
  | 0, _ => ([], false)
  | k + 1, st =>
    match tqdmUpdate st (cancelFlag st.n) 1 with
    | .error _ => ([], true)
    | .ok (st', rep) =>
      let rest := runAdapter cancelFlag k st'
      (rep.toList ++ rest.1, rest.2)

/-! ## The key detector (`analysis.py:91-122`)

The chroma profile and the two Krumhansl-Schmuckler templates are 12-bin
vectors; the float computation is modelled over `ℝ` because `np.std` takes a
square root.  `np.corrcoef` of a zero-variance vector is NaN in NumPy (0/0),
modelled as `Option.none`; every comparison against NaN is false. -/

/-- A 12-bin pitch-class vector. -/
abbrev Vec12 (K : Type) := Fin 12 → K

/-- Sum of the twelve components. -/
def vsum {K : Type} [AddCommMonoid K] (x : Vec12 K) : K := ∑ i, x i

/-- `np.mean` of a 12-vector. -/
def vmean {K : Type} [Field K] (x : Vec12 K) : K := vsum x / 12

/-- The centered cross sum `Σ (x i - mean x) * (y i - mean y)` — the unscaled
covariance underlying `np.corrcoef` (the `1/(N-1)` factors cancel in the
correlation). -/
def scov {K : Type} [Field K] (x y : Vec12 K) : K :=
  ∑ i, (x i - vmean x) * (y i - vmean y)

/-- `np.roll(x, -i)` for a root `i` (`analysis.py:109`): component `j` of the
result is `x[(j + i) mod 12]`. -/
def negRoll {K : Type} (x : Vec12 K) (i : Fin 12) : Vec12 K := fun j => x (j + i)

/-- `np.roll(x, k)` with a positive shift: component `j` is
`x[(j - k) mod 12]`. -/
def posRoll {K : Type} (x : Vec12 K) (k : Fin 12) : Vec12 K := fun j => x (j - k)

/-- `np.std` of a 12-vector: the population standard deviation
`sqrt(mean((x - mean x)^2))`. -/
noncomputable def vstd (x : Vec12 ℝ) : ℝ := Real.sqrt (scov x x / 12)

/-- The chroma normalization (`analysis.py:98`):
`(chroma_vals - mean) / (std + 1e-6)`. -/
noncomputable def normalizeChroma (x : Vec12 ℝ) : Vec12 ℝ :=
  fun i => (x i - vmean x) / (vstd x + 1e-6)

/-- The template normalization (`analysis.py:99-100`): `(p - mean) / std`,
with no epsilon guard. -/
noncomputable def normalizeProfile (x : Vec12 ℝ) : Vec12 ℝ :=
  fun i => (x i - vmean x) / vstd x

/-- The value of the Pearson correlation `np.corrcoef(x, y)[0, 1]` where it is
defined: `scov x y / (sqrt (scov x x) * sqrt (scov y y))`. -/
noncomputable def pearsonVal (x y : Vec12 ℝ) : ℝ :=
  scov x y / (Real.sqrt (scov x x) * Real.sqrt (scov y y))

open Classical in
/-- `np.corrcoef(x, y)[0, 1]`: NaN (modelled `none`) when either vector has
zero variance — NumPy's 0/0 — and the Pearson value otherwise. -/
noncomputable def pearson (x y : Vec12 ℝ) : Option ℝ :=
  if scov x x = 0 ∨ scov y y = 0 then none else some (pearsonVal x y)

/-- The sharp spelling of a pitch letter. -/
def sharpNote (letter : String) : String := letter ++ "#"

/-- `pitch_names` (`analysis.py:91`): the twelve chromatic pitch classes in
sharp spelling, C through B. -/
def pitch_names : Vec12 String :=
  !["C", sharpNote "C", "D", sharpNote "D", "E", "F",
    sharpNote "F", "G", sharpNote "G", "A", sharpNote "A", "B"]

/-- `major_profile` (`analysis.py:94`), the Krumhansl-Schmuckler major
template. -/
def major_profile : Vec12 ℚ :=
  ![6.35, 2.23, 3.48, 2.33, 4.38, 4.09, 2.52, 5.19, 2.39, 3.66, 2.29, 2.88]

/-- `minor_profile` (`analysis.py:95`), the Krumhansl-Schmuckler minor
template. -/
def minor_profile : Vec12 ℚ :=
  ![6.33, 2.68, 3.52, 5.38, 2.60, 3.53, 2.54, 4.75, 3.98, 2.69, 3.34, 3.17]

/-- Componentwise rational-to-real cast (a rational-valued chroma input seen
as the float vector it denotes). -/
def castVec (x : Vec12 ℚ) : Vec12 ℝ := fun i => (x i : ℝ)

open Classical in
/-- One comparison of the scan (`analysis.py:114-120`): a candidate
`(correlation, label)` replaces the running `(max_corr, best_key)` exactly
when the correlation is defined (a comparison against NaN is false) and
strictly exceeds the current maximum. -/
noncomputable def scanStep (acc : ℝ × String) : Option ℝ × String → ℝ × String
  | (none, _) => acc
  | (some v, lab) => if acc.1 < v then (v, lab) else acc

/-- The 24 `(correlation, label)` candidates in scan order
(`analysis.py:106-120`): roots `0..11`, major before minor at each root; the
chroma is normalized with the epsilon guard, the templates without. -/
noncomputable def keyCombos (chroma : Vec12 ℝ) : List (Option ℝ × String) :=
  (List.finRange 12).flatMap fun i =>
    [(pearson (negRoll (normalizeChroma chroma) i)
        (normalizeProfile (castVec major_profile)), pitch_names i ++ " Major"),
     (pearson (negRoll (normalizeChroma chroma) i)
        (normalizeProfile (castVec minor_profile)), pitch_names i ++ " Minor")]

/-- The key-detection scan of `analyze_track` (`analysis.py:102-122`): starting
from `max_corr = -1.0, best_key = "Unknown"`, fold the 24 candidates through
the strict-improvement step and return the final label. -/
noncomputable def best_key (chroma : Vec12 ℝ) : String :=
  ((keyCombos chroma).foldl scanStep (-1, "Unknown")).2

/-! ## Store lemmas -/

theorem storeGet_modify (s : ProgressStore) (id : String) (f : TaskEntry → TaskEntry) :
    storeGet (storeModify s id f) id = (storeGet s id).map f := by
  induction s with
  | nil => rfl
  | cons kv rest ih =>
    obtain ⟨k, e⟩ := kv
    by_cases h : k = id <;> simp [storeModify, storeGet, h, ih]

theorem storeContains_modify (s : ProgressStore) (id : String) (f : TaskEntry → TaskEntry) :
    storeContains (storeModify s id f) id = storeContains s id := by
  simp [storeContains, storeGet_modify]

theorem storeModify_modify (s : ProgressStore) (id : String)
    (f g : TaskEntry → TaskEntry) :
    storeModify (storeModify s id f) id g = storeModify s id (g ∘ f) := by
  induction s with
  | nil => rfl
  | cons kv rest ih =>
    obtain ⟨k, e⟩ := kv
    by_cases h : k = id <;> simp [storeModify, h, ih]

theorem storeGet_erase (s : ProgressStore) (id : String) :
    storeGet (storeErase s id) id = none := by
  induction s with
  | nil => rfl
  | cons kv rest ih =>
    obtain ⟨k, e⟩ := kv
    by_cases h : k = id <;> simp [storeErase, storeGet, h, ih]

theorem storeContains_exists {s : ProgressStore} {id : String}
    (h : storeContains s id = true) : ∃ e, storeGet s id = some e := by
  unfold storeContains at h
  cases hg : storeGet s id with
  | none => rw [hg] at h; simp at h
  | some e => exact ⟨e, rfl⟩

theorem cancel_task_of_contains (s : ProgressStore) (id : String)
    (h : storeContains s id = true) :
    cancel_task s id
      = (storeModify s id (fun e => { e with status := "cancelled" }), true) := by
  simp [cancel_task, h]

theorem update_progress_live (s : ProgressStore) (id : String) (p : ℚ) (e : TaskEntry)
    (hget : storeGet s id = some e) (hst : e.status ≠ "cancelled") :
    update_progress s id p
      = storeModify s id (fun e => { e with progress := pyInt p }) := by
  unfold update_progress
  rw [hget]
  simp [hst]

theorem update_progress_of_cancelled (s : ProgressStore) (id : String) (p : ℚ)
    (e : TaskEntry) (hget : storeGet s id = some e) (hst : e.status = "cancelled") :
    update_progress s id p = s := by
  unfold update_progress
  rw [hget]
  simp [hst]

/-! ## Claims about the progress store -/

/-- Claim C1: once `cancel_task` has set a present task's status to
`"cancelled"`, a subsequent `update_progress` call is a no-op — the store is
unchanged, the stored progress is unchanged and the status remains
`"cancelled"` (late progress writes after cancellation are dropped). -/
theorem cancel_wins_over_late_progress (s : ProgressStore) (id : String) (p : ℚ)
    (h : storeContains s id = true) :
    update_progress (cancel_task s id).1 id p = (cancel_task s id).1 ∧
    (get_progress (cancel_task s id).1 id).status = "cancelled" ∧
    (get_progress (update_progress (cancel_task s id).1 id p) id).progress
      = (get_progress (cancel_task s id).1 id).progress := by
  obtain ⟨e, hg⟩ := storeContains_exists h
  have hct : (cancel_task s id).1
      = storeModify s id (fun e => { e with status := "cancelled" }) := by
    rw [cancel_task_of_contains s id h]
  have hget : storeGet (cancel_task s id).1 id = some { e with status := "cancelled" } := by
    rw [hct, storeGet_modify, hg]
    rfl
  have hnoop : update_progress (cancel_task s id).1 id p = (cancel_task s id).1 :=
    update_progress_of_cancelled _ id p _ hget rfl
  refine ⟨hnoop, ?_, ?_⟩
  · simp [get_progress, hget]
  · rw [hnoop]

/-- Claim C1 witness at a concrete store. -/
theorem cancel_wins_over_late_progress_witness :
    update_progress (cancel_task [("t", ⟨10, "separating"⟩)] "t").1 "t" 50
      = (cancel_task [("t", ⟨10, "separating"⟩)] "t").1 :=
  (cancel_wins_over_late_progress [("t", ⟨10, "separating"⟩)] "t" 50 (by decide)).1

/-- Claim C4 counterexample: on the `Failed` terminal outcome (the generic
`Exception` handler) the partial input file and the output directory are not
deleted, unlike on `Cancelled`; the claimed identical cleanup does not hold. -/
theorem failed_cleanup_differs :
    (failedHandler [("t", ⟨70, "separating"⟩)] "t").2.inputDeleted = false ∧
    (failedHandler [("t", ⟨70, "separating"⟩)] "t").2.outputDirDeleted = false ∧
    (failedHandler [("t", ⟨70, "separating"⟩)] "t").2
      ≠ (cancelledHandler [("t", ⟨70, "separating"⟩)] "t").2 := by
  refine ⟨rfl, rfl, ?_⟩
  decide

/-- Claim C4 amended: on `Failed` the pipeline only removes the task from the
registry; it deletes neither the partial input file nor the output directory.
Only the `Cancelled` handler performs the file cleanup, so the two terminal
outcomes do not share a cleanup path. -/
theorem failed_cleanup_registry_only (s : ProgressStore) (id : String) :
    (failedHandler s id).1 = storeErase s id ∧
    (failedHandler s id).2 = ⟨false, false⟩ ∧
    (cancelledHandler s id).1 = storeErase s id ∧
    (cancelledHandler s id).2 = ⟨true, true⟩ :=
  ⟨rfl, rfl, rfl, rfl⟩

/-- Claim C5 counterexample: `update_progress` with 50 and then 10 on a live
task leaves progress 10, not `max(50, 10) = 50` — the store does not apply a
`max` with the current value. -/
theorem progress_not_max :
    (get_progress (update_progress [("t", ⟨0, "separating"⟩)] "t" 50) "t").progress
      = 50 ∧
    (get_progress
      (update_progress (update_progress [("t", ⟨0, "separating"⟩)] "t" 50) "t" 10)
      "t").progress = 10 ∧
    ¬ ((10 : Int) = max 50 10) := by
  refine ⟨?_, ?_, by decide⟩ <;> decide

/-- Claim C5 amended: for a present, non-cancelled task, `update_progress`
stores `int(percent)` itself (not `max(current, percent)`); consequently the
observed progress is non-decreasing only when the reported percents are
non-decreasing. -/
theorem update_progress_assigns (s : ProgressStore) (id : String) (p q : ℚ)
    (e : TaskEntry) (hget : storeGet s id = some e) (hst : e.status ≠ "cancelled") :
    get_progress (update_progress s id p) id = ⟨pyInt p, e.status⟩ ∧
    (pyInt p ≤ pyInt q →
      (get_progress (update_progress s id p) id).progress ≤
        (get_progress (update_progress (update_progress s id p) id q) id).progress) := by
  have h1 := update_progress_live s id p e hget hst
  have hget1 : storeGet (update_progress s id p) id = some ⟨pyInt p, e.status⟩ := by
    rw [h1, storeGet_modify, hget]
    rfl
  have h2 : get_progress (update_progress s id p) id = ⟨pyInt p, e.status⟩ := by
    simp [get_progress, hget1]
  refine ⟨h2, fun hle => ?_⟩
  have h3 := update_progress_live (update_progress s id p) id q ⟨pyInt p, e.status⟩ hget1 hst
  have hget2 : storeGet (update_progress (update_progress s id p) id q) id
      = some ⟨pyInt q, e.status⟩ := by
    rw [h3, storeGet_modify, hget1]
    rfl
  simp [get_progress, hget2, hget1]
  exact hle

/-- Claim C5 amended, witness at a concrete store. -/
theorem update_progress_assigns_witness :
    get_progress (update_progress [("t", ⟨0, "uploading"⟩)] "t" 37) "t"
      = ⟨pyInt 37, "uploading"⟩ :=
  (update_progress_assigns [("t", ⟨0, "uploading"⟩)] "t" 37 80 ⟨0, "uploading"⟩
    (by decide) (by decide)).1

/-- Claim C6 counterexample: a second `cancel_task` on an already-cancelled
task answers success again (HTTP 200), not `false` — the endpoint does not
report whether the request took effect. -/
theorem second_cancel_not_false :
    (cancel_task (cancel_task [("t", ⟨0, "uploading"⟩)] "t").1 "t").2 ≠ false := by
  decide

/-- Claim C6 amended: `cancel_task` sets the status of a present task to
`"cancelled"` regardless of its current status and answers success whenever
the task is present (its result only reports presence, not whether the request
took effect); it is idempotent on the store, and an unknown id yields
not-found. -/
theorem cancel_task_found_semantics (s : ProgressStore) (id : String) :
    (storeContains s id = true →
      (cancel_task s id).2 = true ∧
      (get_progress (cancel_task s id).1 id).status = "cancelled" ∧
      cancel_task (cancel_task s id).1 id = ((cancel_task s id).1, true)) ∧
    (storeContains s id = false → cancel_task s id = (s, false)) := by
  constructor
  · intro h
    obtain ⟨e, hg⟩ := storeContains_exists h
    have hct : (cancel_task s id).1
        = storeModify s id (fun e => { e with status := "cancelled" }) := by
      rw [cancel_task_of_contains s id h]
    have hget : storeGet (cancel_task s id).1 id
        = some { e with status := "cancelled" } := by
      rw [hct, storeGet_modify, hg]
      rfl
    have hcon : storeContains (cancel_task s id).1 id = true := by
      rw [hct, storeContains_modify]; exact h
    refine ⟨by rw [cancel_task_of_contains s id h], by simp [get_progress, hget], ?_⟩
    have hidem : storeModify (cancel_task s id).1 id
        (fun e => { e with status := "cancelled" }) = (cancel_task s id).1 := by
      rw [hct, storeModify_modify]
      rfl
    rw [cancel_task_of_contains (cancel_task s id).1 id hcon, hidem]
  · intro h
    simp [cancel_task, h]

/-- Claim C6 amended, witness at a concrete store. -/
theorem cancel_task_found_semantics_witness :
    (cancel_task [("t", ⟨5, "analyzing"⟩)] "t").2 = true ∧
    (get_progress (cancel_task [("t", ⟨5, "analyzing"⟩)] "t").1 "t").status
      = "cancelled" :=
  ⟨((cancel_task_found_semantics [("t", ⟨5, "analyzing"⟩)] "t").1 (by decide)).1,
   ((cancel_task_found_semantics [("t", ⟨5, "analyzing"⟩)] "t").1 (by decide)).2.1⟩

/-- Claim C7 counterexample: immediately after the success finalization the
task is gone from the registry, and a `get_progress` for it yields the
unknown-id default — the task is not left readable after completion. -/
theorem completed_task_not_readable :
    storeGet (successFinalize [("t", ⟨99, "separating"⟩)] "t"
      ["drums", "bass", "vocals", "other"]).1 "t" = none ∧
    get_progress (successFinalize [("t", ⟨99, "separating"⟩)] "t"
      ["drums", "bass", "vocals", "other"]).1 "t" = defaultProgress := by
  refine ⟨?_, ?_⟩ <;> decide

/-- Claim C7 amended: on completion the pipeline returns the artifact paths in
the response body itself and removes the task from the registry before
returning, so a `get_progress` issued after completion yields the unknown-id
default rather than finding the task. -/
theorem success_removes_task_before_return (s : ProgressStore) (id : String)
    (stems : List String) :
    (successFinalize s id stems).2 = stems ∧
    storeGet (successFinalize s id stems).1 id = none ∧
    get_progress (successFinalize s id stems).1 id = defaultProgress := by
  refine ⟨rfl, ?_, ?_⟩ <;>
    simp [successFinalize, get_progress, storeGet_erase]

/-- Claim C10: an absent or empty caller-supplied task id resolves to the
fixed literal `"default"`; two id-less uploads register under that single key,
sharing one registry record, and a cancel of `"default"` flips that shared
record to `"cancelled"`, affecting both. -/
theorem default_task_id_shared :
    resolveTaskId none = "default" ∧
    resolveTaskId (some "") = "default" ∧
    initTask (initTask [] (resolveTaskId none)) (resolveTaskId (some ""))
      = [("default", ⟨0, "uploading"⟩)] ∧
    (get_progress
      (cancel_task
        (initTask (initTask [] (resolveTaskId none)) (resolveTaskId (some "")))
        "default").1 "default").status = "cancelled" := by
  refine ⟨rfl, rfl, ?_, ?_⟩ <;> decide

/-! ## Claims about the BPM planner -/

theorem bpmStep_top (s t c m : ℚ) :
    bpmStep s t ((⊤ : WithTop ℚ), c) m
      = ((stretchDiff s t m : WithTop ℚ), t * m) := by
  unfold bpmStep
  rw [if_pos (WithTop.coe_lt_top _)]

theorem bpmStep_lt {s t d : ℚ} (c m : ℚ) (h : stretchDiff s t m < d) :
    bpmStep s t ((d : WithTop ℚ), c) m
      = ((stretchDiff s t m : WithTop ℚ), t * m) := by
  unfold bpmStep
  rw [if_pos (WithTop.coe_lt_coe.mpr h)]

theorem bpmStep_ge {s t d : ℚ} (c m : ℚ) (h : ¬ stretchDiff s t m < d) :
    bpmStep s t ((d : WithTop ℚ), c) m = ((d : WithTop ℚ), c) := by
  unfold bpmStep
  rw [if_neg (fun hc => h (WithTop.coe_lt_coe.mp hc))]

theorem optimize_bpm_target_eq_spec (s t : ℚ) (hs : 0 < s) (ht : 0 < t) :
    optimize_bpm_target s t = bpmPlannerSpec s t := by
  have hcond : ¬ (t ≤ 0 ∨ s ≤ 0) := by push_neg; exact ⟨ht, hs⟩
  unfold optimize_bpm_target
  rw [if_neg hcond]
  simp only [List.foldl_cons, List.foldl_nil]
  rw [bpmStep_top]
  by_cases h1 : stretchDiff s t 1.0 < stretchDiff s t 0.5
  · rw [bpmStep_lt _ _ h1]
    by_cases h2 : stretchDiff s t 2.0 < stretchDiff s t 1.0
    · rw [bpmStep_lt _ _ h2]
      unfold bpmPlannerSpec
      rw [if_neg (by rintro ⟨ha, _⟩; linarith), if_neg (by push_neg; linarith)]
    · rw [bpmStep_ge _ _ h2]
      unfold bpmPlannerSpec
      rw [if_neg (by rintro ⟨ha, _⟩; linarith), if_pos (not_lt.mp h2)]
  · rw [bpmStep_ge _ _ h1]
    by_cases h2 : stretchDiff s t 2.0 < stretchDiff s t 0.5
    · rw [bpmStep_lt _ _ h2]
      unfold bpmPlannerSpec
      rw [if_neg (by rintro ⟨_, hb⟩; linarith),
        if_neg (by push_neg; have := not_lt.mp h1; linarith)]
    · rw [bpmStep_ge _ _ h2]
      unfold bpmPlannerSpec
      rw [if_pos ⟨not_lt.mp h1, not_lt.mp h2⟩]

theorem bpmPlannerSpec_min (s t : ℚ) (m : ℚ)
    (hm : m ∈ ([0.5, 1.0, 2.0] : List ℚ)) :
    |bpmPlannerSpec s t / s - 1| ≤ stretchDiff s t m := by
  have hm' : m = 0.5 ∨ m = 1.0 ∨ m = 2.0 := by simpa using hm
  unfold bpmPlannerSpec
  split_ifs with h1 h2
  · rcases hm' with rfl | rfl | rfl <;>
      simp only [stretchDiff] at h1 ⊢
    · linarith [h1.1]
    · linarith [h1.1]
    · linarith [h1.2]
  · rcases not_and_or.mp h1 with h | h <;>
      push_neg at h <;>
      rcases hm' with rfl | rfl | rfl <;>
      simp only [stretchDiff] at h h2 ⊢ <;> linarith
  · rcases not_and_or.mp h1 with h | h <;>
      push_neg at h <;> push_neg at h2 <;>
      rcases hm' with rfl | rfl | rfl <;>
      simp only [stretchDiff] at h h2 ⊢ <;> linarith

/-- Claim C2: for positive `source_bpm` and `target_bpm`, `optimize_bpm_target`
returns `target_bpm` times the first multiplier in scan order
`{0.5, 1.0, 2.0}` achieving the strict minimum of the stretch distance
`|target*m/source - 1|` (the closed form `bpmPlannerSpec`); the result is one
of the three candidates and minimizes the distance over the candidate set, and
source 170 with requested target 90 yields 180. -/
theorem optimize_bpm_target_170_90 : optimize_bpm_target 170 90 = 180 := by
  rw [optimize_bpm_target_eq_spec 170 90 (by norm_num) (by norm_num)]
  norm_num [bpmPlannerSpec, stretchDiff, abs_of_nonneg]

/-- Claim C2: for positive `source_bpm` and `target_bpm`, `optimize_bpm_target`
returns `target_bpm` times the first multiplier in scan order
`{0.5, 1.0, 2.0}` achieving the strict minimum of the stretch distance
`|target*m/source - 1|` (the closed form `bpmPlannerSpec`); the result is one
of the three candidates and minimizes the distance over the candidate set, and
source 170 with requested target 90 yields 180. -/
theorem optimize_bpm_target_first_min (s t : ℚ) (hs : 0 < s) (ht : 0 < t) :
    optimize_bpm_target s t = bpmPlannerSpec s t ∧
    (optimize_bpm_target s t = t * 0.5 ∨ optimize_bpm_target s t = t * 1.0 ∨
      optimize_bpm_target s t = t * 2.0) ∧
    (∀ m ∈ ([0.5, 1.0, 2.0] : List ℚ),
      |optimize_bpm_target s t / s - 1| ≤ |t * m / s - 1|) ∧
    optimize_bpm_target 170 90 = 180 := by
  have hspec := optimize_bpm_target_eq_spec s t hs ht
  refine ⟨hspec, ?_, ?_, optimize_bpm_target_170_90⟩
  · rw [hspec]
    unfold bpmPlannerSpec
    split_ifs <;> simp
  · intro m hm
    rw [hspec]
    simpa [stretchDiff] using bpmPlannerSpec_min s t m hm

/-- Claim C2 witness: the planner applied at source 120, target 60 doubles the
target. -/
theorem optimize_bpm_target_first_min_witness :
    optimize_bpm_target 120 60 = 120 := by
  have h := optimize_bpm_target_first_min 120 60 (by norm_num) (by norm_num)
  rw [h.1]
  norm_num [bpmPlannerSpec, stretchDiff, abs_of_nonneg]

/-! ## Claims about the progress/cancellation adapter -/

theorem range_map_shift (f : ℕ → ℚ) (k : ℕ) :
    (List.range (k + 1)).map f = f 0 :: (List.range k).map (fun i => f (i + 1)) := by
  rw [List.range_succ_eq_map, List.map_cons, List.map_map]
  rfl

theorem tqdmUpdate_go (n : ℕ) (T : ℕ) (hT : T ≠ 0) (flag : Bool) (hf : flag = false) :
    tqdmUpdate ⟨n, some T⟩ flag 1
      = .ok (⟨n + 1, some T⟩, some (((n + 1 : ℕ) : ℚ) / T * 100)) := by
  subst hf
  simp [tqdmUpdate, hT]

theorem runAdapter_run (T : ℕ) (hT : T ≠ 0) (flag : ℕ → Bool)
    (hflag : ∀ m, flag m = false) :
    ∀ k n, runAdapter flag k ⟨n, some T⟩
      = ((List.range k).map (fun i => ((n + i + 1 : ℕ) : ℚ) / T * 100), false) := by
  intro k
  induction k with
  | zero => intro n; rfl
  | succ k ih =>
    intro n
    rw [runAdapter, tqdmUpdate_go n T hT _ (hflag n)]
    simp only [ih (n + 1), Option.toList_some, List.singleton_append,
      range_map_shift (fun i => ((n + i + 1 : ℕ) : ℚ) / T * 100) k]
    simp only [Prod.mk.injEq, List.cons.injEq]
    refine ⟨⟨by norm_num, ?_⟩, trivial⟩
    exact List.map_congr_left (fun i _ => by push_cast; ring)

theorem runAdapter_cancels (T j : ℕ) (hT : T ≠ 0) :
    ∀ k n, n ≤ j → j < n + k →
      runAdapter (fun m => decide (j ≤ m)) k ⟨n, some T⟩
        = ((List.range (j - n)).map (fun i => ((n + i + 1 : ℕ) : ℚ) / T * 100), true) := by
  intro k
  induction k with
  | zero => intro n h1 h2; omega
  | succ k ih =>
    intro n h1 h2
    by_cases hj : j ≤ n
    · have hjn : j = n := le_antisymm hj h1
      rw [runAdapter]
      rw [show tqdmUpdate ⟨n, some T⟩ (decide (j ≤ n)) 1 = .error () from by
        simp [tqdmUpdate, hj]]
      simp [hjn]
    · push_neg at hj
      rw [runAdapter, tqdmUpdate_go n T hT _ (by simp [Nat.not_le.mpr hj])]
      have hsub : j - n = (j - (n + 1)) + 1 := by omega
      simp only [ih (n + 1) (by omega) (by omega), Option.toList_some,
        List.singleton_append, hsub,
        range_map_shift (fun i => ((n + i + 1 : ℕ) : ℚ) / T * 100) (j - (n + 1))]
      simp only [Prod.mk.injEq, List.cons.injEq]
      refine ⟨⟨by norm_num, ?_⟩, trivial⟩
      exact List.map_congr_left (fun i _ => by push_cast; ring)

theorem runAdapter_length_le (flag : ℕ → Bool) :
    ∀ k st, (runAdapter flag k st).1.length ≤ k := by
  intro k
  induction k with
  | zero => intro st; simp [runAdapter]
  | succ k ih =>
    intro st
    rw [runAdapter]
    cases h : tqdmUpdate st (flag st.n) 1 with
    | error e => simp
    | ok x =>
      obtain ⟨st', rep⟩ := x
      simp only [List.length_append]
      have h1 : rep.toList.length ≤ 1 := by cases rep <;> simp
      have h2 := ih st'
      omega

theorem runAdapter_none (flag : ℕ → Bool) :
    ∀ k n, (runAdapter flag k ⟨n, none⟩).1 = [] := by
  intro k
  induction k with
  | zero => intro n; rfl
  | succ k ih =>
    intro n
    rw [runAdapter]
    by_cases h : flag n
    · simp [tqdmUpdate, h]
    · simp [tqdmUpdate, h, ih (n + 1)]

/-- Claim C8: the adapter checks the cancel flag before each chunk and raises
immediately when it is set, abandoning the remaining chunks — a cancel first
observed before chunk `j+1` leaves exactly the first `j` reports; an
uncancelled run over the `T` chunks of the computation reports exactly once
per chunk, the reports being `1/T*100, …, T/T*100`, each at most 100 (and
never more than one report per chunk in any run); when the total is unknown,
progress reporting is skipped entirely. -/
theorem tqdm_adapter_contract :
    (∀ st inc, tqdmUpdate st true inc = .error ()) ∧
    (∀ T : ℕ, T ≠ 0 → runAdapter (fun _ => false) T ⟨0, some T⟩
        = ((List.range T).map (fun i => ((i + 1 : ℕ) : ℚ) / T * 100), false)) ∧
    (∀ T : ℕ, T ≠ 0 → ∀ r ∈ (runAdapter (fun _ => false) T ⟨0, some T⟩).1, r ≤ 100) ∧
    (∀ flag k st, (runAdapter flag k st).1.length ≤ k) ∧
    (∀ T j k : ℕ, T ≠ 0 → j < k →
      runAdapter (fun m => decide (j ≤ m)) k ⟨0, some T⟩
        = ((List.range j).map (fun i => ((i + 1 : ℕ) : ℚ) / T * 100), true)) ∧
    (∀ flag k n, (runAdapter flag k ⟨n, none⟩).1 = []) := by
  have hshape : ∀ T : ℕ, T ≠ 0 → ∀ k, ∀ hk : True,
      (List.range k).map (fun i => ((0 + i + 1 : ℕ) : ℚ) / T * 100)
        = (List.range k).map (fun i => ((i + 1 : ℕ) : ℚ) / T * 100) :=
    fun T _ k _ => List.map_congr_left (fun i _ => by push_cast; ring)
  refine ⟨fun st inc => rfl, ?_, ?_, runAdapter_length_le, ?_, runAdapter_none⟩
  · intro T hT
    rw [runAdapter_run T hT _ (fun _ => rfl) T 0, hshape T hT T trivial]
  · intro T hT r hr
    rw [runAdapter_run T hT _ (fun _ => rfl) T 0] at hr
    simp only [List.mem_map, List.mem_range] at hr
    obtain ⟨i, hi, rfl⟩ := hr
    have hTpos : (0 : ℚ) < T := by
      exact_mod_cast Nat.pos_of_ne_zero hT
    have hle : ((0 + i + 1 : ℕ) : ℚ) ≤ (T : ℚ) := by
      exact_mod_cast (by omega : 0 + i + 1 ≤ T)
    calc ((0 + i + 1 : ℕ) : ℚ) / T * 100 ≤ 1 * 100 := by
          apply mul_le_mul_of_nonneg_right _ (by norm_num)
          exact (div_le_one hTpos).mpr hle
      _ = 100 := by norm_num
  · intro T j k hT hjk
    rw [runAdapter_cancels T j hT k 0 (by omega) (by omega)]
    have : j - 0 = j := by omega
    rw [this, hshape T hT j trivial]

/-- Claim C8 witness: an uncancelled 4-chunk run reports 25, 50, 75, 100 and
no cancellation. -/
theorem tqdm_adapter_contract_witness :
    runAdapter (fun _ => false) 4 ⟨0, some 4⟩
      = ((List.range 4).map (fun i => ((i + 1 : ℕ) : ℚ) / 4 * 100), false) :=
  tqdm_adapter_contract.2.1 4 (by norm_num)

/-! ## Key detector: covariance and Pearson correlation lemmas -/

theorem scov_self_nonneg (x : Vec12 ℝ) : 0 ≤ scov x x :=
  Finset.sum_nonneg fun _ _ => mul_self_nonneg _

theorem scov_self_pos {x : Vec12 ℝ} (h : scov x x ≠ 0) : 0 < scov x x :=
  lt_of_le_of_ne (scov_self_nonneg x) (Ne.symm h)

theorem vstd_nonneg (x : Vec12 ℝ) : 0 ≤ vstd x := Real.sqrt_nonneg _

theorem vstd_pos {x : Vec12 ℝ} (h : scov x x ≠ 0) : 0 < vstd x := by
  unfold vstd
  rw [Real.sqrt_pos]
  exact div_pos (scov_self_pos h) (by norm_num)

theorem pearsonVal_self {x : Vec12 ℝ} (h : scov x x ≠ 0) : pearsonVal x x = 1 := by
  unfold pearsonVal
  rw [Real.mul_self_sqrt (scov_self_nonneg x), div_self h]

theorem scov_sq (x : Vec12 ℝ) : scov x x = ∑ i, (x i - vmean x) ^ 2 := by
  unfold scov
  exact Finset.sum_congr rfl fun i _ => (pow_two (x i - vmean x)).symm

theorem scov_cauchy_schwarz (x y : Vec12 ℝ) :
    scov x y ^ 2 ≤ scov x x * scov y y := by
  rw [scov_sq x, scov_sq y]
  exact Finset.sum_mul_sq_le_sq_mul_sq _ _ _

theorem pearsonVal_le_one {x y : Vec12 ℝ} (hx : scov x x ≠ 0) (hy : scov y y ≠ 0) :
    pearsonVal x y ≤ 1 := by
  have hxp := scov_self_pos hx
  have hd : 0 < Real.sqrt (scov x x) * Real.sqrt (scov y y) := by
    apply mul_pos <;> rw [Real.sqrt_pos]
    · exact hxp
    · exact scov_self_pos hy
  rw [pearsonVal, div_le_one hd]
  calc scov x y ≤ |scov x y| := le_abs_self _
    _ = Real.sqrt (scov x y ^ 2) := (Real.sqrt_sq_eq_abs _).symm
    _ ≤ Real.sqrt (scov x x * scov y y) := Real.sqrt_le_sqrt (scov_cauchy_schwarz x y)
    _ = Real.sqrt (scov x x) * Real.sqrt (scov y y) := Real.sqrt_mul hxp.le _

theorem pearsonVal_lt_one {x y : Vec12 ℝ} (hx : scov x x ≠ 0) (hy : scov y y ≠ 0)
    (hcs : scov x y ^ 2 < scov x x * scov y y) :
    pearsonVal x y < 1 := by
  have hxp := scov_self_pos hx
  have hd : 0 < Real.sqrt (scov x x) * Real.sqrt (scov y y) := by
    apply mul_pos <;> rw [Real.sqrt_pos]
    · exact hxp
    · exact scov_self_pos hy
  rw [pearsonVal, div_lt_one hd]
  calc scov x y ≤ |scov x y| := le_abs_self _
    _ = Real.sqrt (scov x y ^ 2) := (Real.sqrt_sq_eq_abs _).symm
    _ < Real.sqrt (scov x x * scov y y) := Real.sqrt_lt_sqrt (sq_nonneg _) hcs
    _ = Real.sqrt (scov x x) * Real.sqrt (scov y y) := Real.sqrt_mul hxp.le _

theorem pearson_some {x y : Vec12 ℝ} (hx : scov x x ≠ 0) (hy : scov y y ≠ 0) :
    pearson x y = some (pearsonVal x y) := by
  unfold pearson
  rw [if_neg (by push_neg; exact ⟨hx, hy⟩)]

theorem pearson_none_left {x : Vec12 ℝ} (y : Vec12 ℝ) (hx : scov x x = 0) :
    pearson x y = none := by
  unfold pearson
  rw [if_pos (Or.inl hx)]

theorem pearson_self {x : Vec12 ℝ} (h : scov x x ≠ 0) : pearson x x = some 1 := by
  rw [pearson_some h h, pearsonVal_self h]

theorem pearson_some_le_one {x y : Vec12 ℝ} {v : ℝ} (h : pearson x y = some v) :
    v ≤ 1 := by
  unfold pearson at h
  split_ifs at h with hc
  push_neg at hc
  rw [Option.some_inj] at h
  rw [← h]
  exact pearsonVal_le_one hc.1 hc.2

/-! ## Key detector: invariance of the correlation under the normalizations -/

theorem vmean_affine (x : Vec12 ℝ) (a b : ℝ) (ha : a ≠ 0) :
    vmean (fun i => (x i - b) / a) = (vmean x - b) / a := by
  unfold vmean vsum
  rw [← Finset.sum_div, Finset.sum_sub_distrib, Finset.sum_const, Finset.card_univ,
    Fintype.card_fin, nsmul_eq_mul, div_div,
    show (∑ i, x i) / 12 - b = ((∑ i, x i) - 12 * b) / 12 from by ring, div_div]
  ring_nf

theorem center_affine (x : Vec12 ℝ) (a b : ℝ) (ha : a ≠ 0) (i : Fin 12) :
    (x i - b) / a - vmean (fun i => (x i - b) / a) = (x i - vmean x) / a := by
  rw [vmean_affine x a b ha]
  ring

theorem scov_affine_left (x y : Vec12 ℝ) (a b : ℝ) (ha : a ≠ 0) :
    scov (fun i => (x i - b) / a) y = scov x y / a := by
  unfold scov
  rw [Finset.sum_div]
  refine Finset.sum_congr rfl fun i _ => ?_
  rw [center_affine x a b ha i]
  ring

theorem scov_affine_self (x : Vec12 ℝ) (a b : ℝ) (ha : a ≠ 0) :
    scov (fun i => (x i - b) / a) (fun i => (x i - b) / a) = scov x x / a ^ 2 := by
  unfold scov
  rw [Finset.sum_div]
  refine Finset.sum_congr rfl fun i _ => ?_
  rw [center_affine x a b ha i]
  ring

theorem scov_affine_right (x y : Vec12 ℝ) (a b : ℝ) (ha : a ≠ 0) :
    scov x (fun i => (y i - b) / a) = scov x y / a := by
  unfold scov
  rw [Finset.sum_div]
  refine Finset.sum_congr rfl fun i _ => ?_
  rw [center_affine y a b ha i]
  ring

theorem div_shuffle_left (s a u w : ℝ) (ha : a ≠ 0) :
    s / a / (u / a * w) = s / (u * w) := by
  by_cases hu : u = 0
  · simp [hu]
  by_cases hw : w = 0
  · simp [hw]
  field_simp

theorem div_shuffle_right (s a u w : ℝ) (ha : a ≠ 0) :
    s / a / (u * (w / a)) = s / (u * w) := by
  by_cases hu : u = 0
  · simp [hu]
  by_cases hw : w = 0
  · simp [hw]
  field_simp

theorem pearson_affine_left (x y : Vec12 ℝ) (a b : ℝ) (ha : 0 < a) :
    pearson (fun i => (x i - b) / a) y = pearson x y := by
  have ha' : a ≠ 0 := ne_of_gt ha
  unfold pearson pearsonVal
  rw [scov_affine_self x a b ha', scov_affine_left x y a b ha',
    Real.sqrt_div (scov_self_nonneg x), Real.sqrt_sq ha.le,
    div_shuffle_left _ _ _ _ ha']
  have hiff : (scov x x / a ^ 2 = 0 ∨ scov y y = 0) ↔ (scov x x = 0 ∨ scov y y = 0) := by
    rw [div_eq_zero_iff]
    simp [pow_eq_zero_iff, ha']
  exact if_congr hiff rfl rfl

theorem pearson_affine_right (x y : Vec12 ℝ) (a b : ℝ) (ha : 0 < a) :
    pearson x (fun i => (y i - b) / a) = pearson x y := by
  have ha' : a ≠ 0 := ne_of_gt ha
  unfold pearson pearsonVal
  rw [scov_affine_self y a b ha', scov_affine_right x y a b ha',
    Real.sqrt_div (scov_self_nonneg y), Real.sqrt_sq ha.le,
    div_shuffle_right _ _ _ _ ha']
  have hiff : (scov x x = 0 ∨ scov y y / a ^ 2 = 0) ↔ (scov x x = 0 ∨ scov y y = 0) := by
    rw [div_eq_zero_iff]
    simp [pow_eq_zero_iff, ha']
  exact if_congr hiff rfl rfl

theorem pearson_score_reduce (c : Vec12 ℝ) (i : Fin 12) (P : Vec12 ℝ)
    (hP : scov P P ≠ 0) :
    pearson (negRoll (normalizeChroma c) i) (normalizeProfile P)
      = pearson (negRoll c i) P := by
  have h1 : negRoll (normalizeChroma c) i
      = fun j => (negRoll c i j - vmean c) / (vstd c + 1e-6) := rfl
  have h2 : normalizeProfile P = fun j => (P j - vmean P) / vstd P := rfl
  have hstdc : (0 : ℝ) < vstd c + 1e-6 := by
    have := vstd_nonneg c
    norm_num
    linarith
  rw [h1, pearson_affine_left (negRoll c i) _ _ _ hstdc, h2,
    pearson_affine_right _ P _ _ (vstd_pos hP)]

/-! ## Key detector: the scan picks the first strict maximum -/

theorem foldl_scanStep_lt (M : ℝ) :
    ∀ (l : List (Option ℝ × String)) (acc : ℝ × String), acc.1 < M →
      (∀ e ∈ l, ∀ v, e.1 = some v → v < M) →
      (l.foldl scanStep acc).1 < M := by
  intro l
  induction l with
  | nil => intro acc h _; exact h
  | cons e l ih =>
    intro acc hacc hall
    rw [List.foldl_cons]
    apply ih
    · obtain ⟨c, lab⟩ := e
      cases c with
      | none => exact hacc
      | some v =>
        have hv : v < M := hall (some v, lab) (List.mem_cons_self _ _) v rfl
        simp only [scanStep]
        split_ifs
        · exact hv
        · exact hacc
    · intro e' he' v hv
      exact hall e' (List.mem_cons_of_mem _ he') v hv

theorem foldl_scanStep_stable :
    ∀ (l : List (Option ℝ × String)) (acc : ℝ × String),
      (∀ e ∈ l, ∀ v, e.1 = some v → v ≤ acc.1) →
      l.foldl scanStep acc = acc := by
  intro l
  induction l with
  | nil => intro acc _; rfl
  | cons e l ih =>
    intro acc hall
    rw [List.foldl_cons]
    have hstep : scanStep acc e = acc := by
      obtain ⟨c, lab⟩ := e
      cases c with
      | none => rfl
      | some v =>
        have hv : v ≤ acc.1 := hall (some v, lab) (List.mem_cons_self _ _) v rfl
        simp only [scanStep]
        rw [if_neg (not_lt.mpr hv)]
    rw [hstep]
    exact ih acc fun e' he' v hv => hall e' (List.mem_cons_of_mem _ he') v hv

theorem best_key_first_strict_max (chroma : Vec12 ℝ)
    (l₁ l₂ : List (Option ℝ × String)) (M : ℝ) (lab : String)
    (hdec : keyCombos chroma = l₁ ++ (some M, lab) :: l₂)
    (h₁ : ∀ e ∈ l₁, ∀ v, e.1 = some v → v < M)
    (h₂ : ∀ e ∈ l₂, ∀ v, e.1 = some v → v ≤ M)
    (hM : -1 < M) :
    best_key chroma = lab := by
  unfold best_key
  rw [hdec, List.foldl_append, List.foldl_cons]
  have hacc := foldl_scanStep_lt M l₁ (-1, "Unknown") hM h₁
  have hstep : scanStep (l₁.foldl scanStep (-1, "Unknown")) (some M, lab) = (M, lab) := by
    simp only [scanStep]
    rw [if_pos hacc]
  rw [hstep, foldl_scanStep_stable l₂ (M, lab) h₂]

/-! ## Key detector: rational transfer and roll lemmas -/

theorem vmean_cast (u : Vec12 ℚ) : vmean (castVec u) = ((vmean u : ℚ) : ℝ) := by
  unfold vmean vsum
  simp only [castVec]
  push_cast
  rfl

theorem scov_cast (u v : Vec12 ℚ) :
    scov (castVec u) (castVec v) = ((scov u v : ℚ) : ℝ) := by
  unfold scov
  rw [vmean_cast u, vmean_cast v]
  simp only [castVec]
  push_cast
  rfl

theorem vsum_negRoll {K : Type} [AddCommMonoid K] (x : Vec12 K) (i : Fin 12) :
    vsum (negRoll x i) = vsum x := by
  unfold vsum negRoll
  exact Fintype.sum_equiv (Equiv.addRight i) _ _ fun j => rfl

theorem vmean_negRoll {K : Type} [Field K] (x : Vec12 K) (i : Fin 12) :
    vmean (negRoll x i) = vmean x := by
  unfold vmean
  rw [vsum_negRoll]

theorem scov_negRoll_self {K : Type} [Field K] (x : Vec12 K) (i : Fin 12) :
    scov (negRoll x i) (negRoll x i) = scov x x := by
  unfold scov
  rw [vmean_negRoll]
  exact Fintype.sum_equiv (Equiv.addRight i) _ _ fun j => rfl

theorem vsum_posRoll {K : Type} [AddCommMonoid K] (x : Vec12 K) (k : Fin 12) :
    vsum (posRoll x k) = vsum x := by
  unfold vsum posRoll
  exact Fintype.sum_equiv (Equiv.subRight k) _ _ fun j => rfl

theorem vmean_posRoll {K : Type} [Field K] (x : Vec12 K) (k : Fin 12) :
    vmean (posRoll x k) = vmean x := by
  unfold vmean
  rw [vsum_posRoll]

theorem scov_posRoll_self {K : Type} [Field K] (x : Vec12 K) (k : Fin 12) :
    scov (posRoll x k) (posRoll x k) = scov x x := by
  unfold scov
  rw [vmean_posRoll]
  exact Fintype.sum_equiv (Equiv.subRight k) _ _ fun j => rfl

theorem negRoll_zero {K : Type} (x : Vec12 K) : negRoll x 0 = x := by
  funext j
  unfold negRoll
  rw [add_zero]

theorem negRoll_posRoll_same {K : Type} (x : Vec12 K) (k : Fin 12) :
    negRoll (posRoll x k) k = x := by
  funext j
  unfold negRoll posRoll
  rw [add_sub_cancel_right]

theorem negRoll_roll3_one {K : Type} (x : Vec12 K) :
    negRoll (posRoll x 3) 1 = posRoll x 2 := by
  funext j
  show x ((j + 1) - 3) = x (j - 2)
  congr 1
  revert j
  decide

theorem negRoll_roll3_two {K : Type} (x : Vec12 K) :
    negRoll (posRoll x 3) 2 = posRoll x 1 := by
  funext j
  show x ((j + 2) - 3) = x (j - 1)
  congr 1
  revert j
  decide

/-! ## Key detector: concrete template computations over `ℚ` -/

theorem major_var_ne : scov major_profile major_profile ≠ 0 := by
  simp only [scov, vmean, vsum, major_profile, Fin.sum_univ_succ, Fin.sum_univ_zero,
    Matrix.cons_val_zero, Matrix.cons_val_succ]
  norm_num

theorem minor_var_ne : scov minor_profile minor_profile ≠ 0 := by
  simp only [scov, vmean, vsum, minor_profile, Fin.sum_univ_succ, Fin.sum_univ_zero,
    Matrix.cons_val_zero, Matrix.cons_val_succ]
  norm_num

theorem posRoll_minor_3 : posRoll minor_profile 3
    = ![2.69, 3.34, 3.17, 6.33, 2.68, 3.52, 5.38, 2.60, 3.53, 2.54, 4.75, 3.98] := by
  funext j
  fin_cases j <;> rfl

theorem posRoll_minor_2 : posRoll minor_profile 2
    = ![3.34, 3.17, 6.33, 2.68, 3.52, 5.38, 2.60, 3.53, 2.54, 4.75, 3.98, 2.69] := by
  funext j
  fin_cases j <;> rfl

theorem posRoll_minor_1 : posRoll minor_profile 1
    = ![3.17, 6.33, 2.68, 3.52, 5.38, 2.60, 3.53, 2.54, 4.75, 3.98, 2.69, 3.34] := by
  funext j
  fin_cases j <;> rfl

theorem cs_r3_major :
    scov (posRoll minor_profile 3) major_profile ^ 2
      < scov (posRoll minor_profile 3) (posRoll minor_profile 3)
        * scov major_profile major_profile := by
  rw [posRoll_minor_3]
  simp only [scov, vmean, vsum, major_profile, Fin.sum_univ_succ, Fin.sum_univ_zero,
    Matrix.cons_val_zero, Matrix.cons_val_succ]
  norm_num

theorem cs_r3_minor :
    scov (posRoll minor_profile 3) minor_profile ^ 2
      < scov (posRoll minor_profile 3) (posRoll minor_profile 3)
        * scov minor_profile minor_profile := by
  rw [posRoll_minor_3]
  simp only [scov, vmean, vsum, minor_profile, Fin.sum_univ_succ, Fin.sum_univ_zero,
    Matrix.cons_val_zero, Matrix.cons_val_succ]
  norm_num

theorem cs_r2_major :
    scov (posRoll minor_profile 2) major_profile ^ 2
      < scov (posRoll minor_profile 2) (posRoll minor_profile 2)
        * scov major_profile major_profile := by
  rw [posRoll_minor_2]
  simp only [scov, vmean, vsum, major_profile, Fin.sum_univ_succ, Fin.sum_univ_zero,
    Matrix.cons_val_zero, Matrix.cons_val_succ]
  norm_num

theorem cs_r2_minor :
    scov (posRoll minor_profile 2) minor_profile ^ 2
      < scov (posRoll minor_profile 2) (posRoll minor_profile 2)
        * scov minor_profile minor_profile := by
  rw [posRoll_minor_2]
  simp only [scov, vmean, vsum, minor_profile, Fin.sum_univ_succ, Fin.sum_univ_zero,
    Matrix.cons_val_zero, Matrix.cons_val_succ]
  norm_num

theorem cs_r1_major :
    scov (posRoll minor_profile 1) major_profile ^ 2
      < scov (posRoll minor_profile 1) (posRoll minor_profile 1)
        * scov major_profile major_profile := by
  rw [posRoll_minor_1]
  simp only [scov, vmean, vsum, major_profile, Fin.sum_univ_succ, Fin.sum_univ_zero,
    Matrix.cons_val_zero, Matrix.cons_val_succ]
  norm_num

theorem cs_r1_minor :
    scov (posRoll minor_profile 1) minor_profile ^ 2
      < scov (posRoll minor_profile 1) (posRoll minor_profile 1)
        * scov minor_profile minor_profile := by
  rw [posRoll_minor_1]
  simp only [scov, vmean, vsum, minor_profile, Fin.sum_univ_succ, Fin.sum_univ_zero,
    Matrix.cons_val_zero, Matrix.cons_val_succ]
  norm_num

theorem cs_minor_major :
    scov minor_profile major_profile ^ 2
      < scov minor_profile minor_profile * scov major_profile major_profile := by
  simp only [scov, vmean, vsum, major_profile, minor_profile, Fin.sum_univ_succ,
    Fin.sum_univ_zero, Matrix.cons_val_zero, Matrix.cons_val_succ]
  norm_num

/-! ## Key detector: combination scores over cast rational inputs -/

theorem pearson_cast_self {u : Vec12 ℚ} (h : scov u u ≠ 0) :
    pearson (castVec u) (castVec u) = some 1 := by
  apply pearson_self
  rw [scov_cast]
  exact_mod_cast h

theorem pearson_cast_lt_one {u w : Vec12 ℚ} (hu : scov u u ≠ 0) (hw : scov w w ≠ 0)
    (hcs : scov u w ^ 2 < scov u u * scov w w) :
    ∀ r, pearson (castVec u) (castVec w) = some r → r < 1 := by
  intro r hr
  have hu' : scov (castVec u) (castVec u) ≠ 0 := by
    rw [scov_cast]; exact_mod_cast hu
  have hw' : scov (castVec w) (castVec w) ≠ 0 := by
    rw [scov_cast]; exact_mod_cast hw
  have hcs' : scov (castVec u) (castVec w) ^ 2
      < scov (castVec u) (castVec u) * scov (castVec w) (castVec w) := by
    rw [scov_cast, scov_cast, scov_cast]
    exact_mod_cast hcs
  rw [pearson_some hu' hw', Option.some_inj] at hr
  rw [← hr]
  exact pearsonVal_lt_one hu' hw' hcs'

theorem score_eq_one_self (c : Vec12 ℚ) (i : Fin 12) (P : Vec12 ℚ)
    (hP : scov P P ≠ 0) (hroll : negRoll c i = P) :
    pearson (negRoll (normalizeChroma (castVec c)) i) (normalizeProfile (castVec P))
      = some 1 := by
  have hP' : scov (castVec P) (castVec P) ≠ 0 := by
    rw [scov_cast]; exact_mod_cast hP
  rw [pearson_score_reduce _ _ _ hP']
  have hcc : negRoll (castVec c) i = castVec P := by
    rw [show negRoll (castVec c) i = castVec (negRoll c i) from rfl, hroll]
  rw [hcc]
  exact pearson_cast_self hP

theorem score_lt_one_of_cs (c : Vec12 ℚ) (i : Fin 12) (P : Vec12 ℚ)
    (hP : scov P P ≠ 0)
    (hU : scov (negRoll c i) (negRoll c i) ≠ 0)
    (hcs : scov (negRoll c i) P ^ 2 < scov (negRoll c i) (negRoll c i) * scov P P) :
    ∀ v, pearson (negRoll (normalizeChroma (castVec c)) i)
        (normalizeProfile (castVec P)) = some v → v < 1 := by
  intro v hv
  have hP' : scov (castVec P) (castVec P) ≠ 0 := by
    rw [scov_cast]; exact_mod_cast hP
  rw [pearson_score_reduce _ _ _ hP'] at hv
  rw [show negRoll (castVec c) i = castVec (negRoll c i) from rfl] at hv
  exact pearson_cast_lt_one hU hP hcs v hv

theorem keyCombos_le_one (c : Vec12 ℝ) :
    ∀ e ∈ keyCombos c, ∀ v, e.1 = some v → v ≤ 1 := by
  intro e he v hv
  unfold keyCombos at he
  rw [List.mem_flatMap] at he
  obtain ⟨i, _, he⟩ := he
  simp only [List.mem_cons, List.not_mem_nil, or_false] at he
  rcases he with rfl | rfl <;> exact pearson_some_le_one hv

/-! ## Key detector: the two template inputs and the degenerate input -/

theorem major_combos_decomp :
    keyCombos (castVec major_profile)
      = ((some (1 : ℝ)), "C Major") :: (keyCombos (castVec major_profile)).drop 1 := by
  have hmid : (pearson (negRoll (normalizeChroma (castVec major_profile)) 0)
        (normalizeProfile (castVec major_profile)), pitch_names 0 ++ " Major")
      = ((some (1 : ℝ)), "C Major") := by
    rw [score_eq_one_self major_profile 0 major_profile major_var_ne (negRoll_zero _),
      show pitch_names 0 ++ " Major" = "C Major" from rfl]
  calc keyCombos (castVec major_profile)
      = (pearson (negRoll (normalizeChroma (castVec major_profile)) 0)
          (normalizeProfile (castVec major_profile)), pitch_names 0 ++ " Major")
        :: (keyCombos (castVec major_profile)).drop 1 := rfl
    _ = ((some (1 : ℝ)), "C Major") :: (keyCombos (castVec major_profile)).drop 1 := by
        rw [hmid]

theorem best_key_major : best_key (castVec major_profile) = "C Major" := by
  refine best_key_first_strict_max _ []
    ((keyCombos (castVec major_profile)).drop 1) 1 _ ?_ (by simp) ?_ (by norm_num)
  · rw [List.nil_append]
    exact major_combos_decomp
  · intro e he v hv
    exact keyCombos_le_one _ e (List.mem_of_mem_drop he) v hv

theorem keyCombos_expand (c : Vec12 ℝ) :
    keyCombos c
      = [(pearson (negRoll (normalizeChroma c) 0)
        (normalizeProfile (castVec major_profile)), pitch_names 0 ++ " Major"),
     (pearson (negRoll (normalizeChroma c) 0)
        (normalizeProfile (castVec minor_profile)), pitch_names 0 ++ " Minor"),
     (pearson (negRoll (normalizeChroma c) 1)
        (normalizeProfile (castVec major_profile)), pitch_names 1 ++ " Major"),
     (pearson (negRoll (normalizeChroma c) 1)
        (normalizeProfile (castVec minor_profile)), pitch_names 1 ++ " Minor"),
     (pearson (negRoll (normalizeChroma c) 2)
        (normalizeProfile (castVec major_profile)), pitch_names 2 ++ " Major"),
     (pearson (negRoll (normalizeChroma c) 2)
        (normalizeProfile (castVec minor_profile)), pitch_names 2 ++ " Minor"),
     (pearson (negRoll (normalizeChroma c) 3)
        (normalizeProfile (castVec major_profile)), pitch_names 3 ++ " Major"),
     (pearson (negRoll (normalizeChroma c) 3)
        (normalizeProfile (castVec minor_profile)), pitch_names 3 ++ " Minor"),
     (pearson (negRoll (normalizeChroma c) 4)
        (normalizeProfile (castVec major_profile)), pitch_names 4 ++ " Major"),
     (pearson (negRoll (normalizeChroma c) 4)
        (normalizeProfile (castVec minor_profile)), pitch_names 4 ++ " Minor"),
     (pearson (negRoll (normalizeChroma c) 5)
        (normalizeProfile (castVec major_profile)), pitch_names 5 ++ " Major"),
     (pearson (negRoll (normalizeChroma c) 5)
        (normalizeProfile (castVec minor_profile)), pitch_names 5 ++ " Minor"),
     (pearson (negRoll (normalizeChroma c) 6)
        (normalizeProfile (castVec major_profile)), pitch_names 6 ++ " Major"),
     (pearson (negRoll (normalizeChroma c) 6)
        (normalizeProfile (castVec minor_profile)), pitch_names 6 ++ " Minor"),
     (pearson (negRoll (normalizeChroma c) 7)
        (normalizeProfile (castVec major_profile)), pitch_names 7 ++ " Major"),
     (pearson (negRoll (normalizeChroma c) 7)
        (normalizeProfile (castVec minor_profile)), pitch_names 7 ++ " Minor"),
     (pearson (negRoll (normalizeChroma c) 8)
        (normalizeProfile (castVec major_profile)), pitch_names 8 ++ " Major"),
     (pearson (negRoll (normalizeChroma c) 8)
        (normalizeProfile (castVec minor_profile)), pitch_names 8 ++ " Minor"),
     (pearson (negRoll (normalizeChroma c) 9)
        (normalizeProfile (castVec major_profile)), pitch_names 9 ++ " Major"),
     (pearson (negRoll (normalizeChroma c) 9)
        (normalizeProfile (castVec minor_profile)), pitch_names 9 ++ " Minor"),
     (pearson (negRoll (normalizeChroma c) 10)
        (normalizeProfile (castVec major_profile)), pitch_names 10 ++ " Major"),
     (pearson (negRoll (normalizeChroma c) 10)
        (normalizeProfile (castVec minor_profile)), pitch_names 10 ++ " Minor"),
     (pearson (negRoll (normalizeChroma c) 11)
        (normalizeProfile (castVec major_profile)), pitch_names 11 ++ " Major"),
     (pearson (negRoll (normalizeChroma c) 11)
        (normalizeProfile (castVec minor_profile)), pitch_names 11 ++ " Minor")] := rfl

theorem minor3_combos_decomp :
    keyCombos (castVec (posRoll minor_profile 3))
      = [(pearson (negRoll (normalizeChroma (castVec (posRoll minor_profile 3))) 0)
        (normalizeProfile (castVec major_profile)), pitch_names 0 ++ " Major"),
       (pearson (negRoll (normalizeChroma (castVec (posRoll minor_profile 3))) 0)
        (normalizeProfile (castVec minor_profile)), pitch_names 0 ++ " Minor"),
       (pearson (negRoll (normalizeChroma (castVec (posRoll minor_profile 3))) 1)
        (normalizeProfile (castVec major_profile)), pitch_names 1 ++ " Major"),
       (pearson (negRoll (normalizeChroma (castVec (posRoll minor_profile 3))) 1)
        (normalizeProfile (castVec minor_profile)), pitch_names 1 ++ " Minor"),
       (pearson (negRoll (normalizeChroma (castVec (posRoll minor_profile 3))) 2)
        (normalizeProfile (castVec major_profile)), pitch_names 2 ++ " Major"),
       (pearson (negRoll (normalizeChroma (castVec (posRoll minor_profile 3))) 2)
        (normalizeProfile (castVec minor_profile)), pitch_names 2 ++ " Minor"),
       (pearson (negRoll (normalizeChroma (castVec (posRoll minor_profile 3))) 3)
        (normalizeProfile (castVec major_profile)), pitch_names 3 ++ " Major")]
        ++ ((some (1 : ℝ)), "D# Minor")
          :: [(pearson (negRoll (normalizeChroma (castVec (posRoll minor_profile 3))) 4)
        (normalizeProfile (castVec major_profile)), pitch_names 4 ++ " Major"),
         (pearson (negRoll (normalizeChroma (castVec (posRoll minor_profile 3))) 4)
        (normalizeProfile (castVec minor_profile)), pitch_names 4 ++ " Minor"),
         (pearson (negRoll (normalizeChroma (castVec (posRoll minor_profile 3))) 5)
        (normalizeProfile (castVec major_profile)), pitch_names 5 ++ " Major"),
         (pearson (negRoll (normalizeChroma (castVec (posRoll minor_profile 3))) 5)
        (normalizeProfile (castVec minor_profile)), pitch_names 5 ++ " Minor"),
         (pearson (negRoll (normalizeChroma (castVec (posRoll minor_profile 3))) 6)
        (normalizeProfile (castVec major_profile)), pitch_names 6 ++ " Major"),
         (pearson (negRoll (normalizeChroma (castVec (posRoll minor_profile 3))) 6)
        (normalizeProfile (castVec minor_profile)), pitch_names 6 ++ " Minor"),
         (pearson (negRoll (normalizeChroma (castVec (posRoll minor_profile 3))) 7)
        (normalizeProfile (castVec major_profile)), pitch_names 7 ++ " Major"),
         (pearson (negRoll (normalizeChroma (castVec (posRoll minor_profile 3))) 7)
        (normalizeProfile (castVec minor_profile)), pitch_names 7 ++ " Minor"),
         (pearson (negRoll (normalizeChroma (castVec (posRoll minor_profile 3))) 8)
        (normalizeProfile (castVec major_profile)), pitch_names 8 ++ " Major"),
         (pearson (negRoll (normalizeChroma (castVec (posRoll minor_profile 3))) 8)
        (normalizeProfile (castVec minor_profile)), pitch_names 8 ++ " Minor"),
         (pearson (negRoll (normalizeChroma (castVec (posRoll minor_profile 3))) 9)
        (normalizeProfile (castVec major_profile)), pitch_names 9 ++ " Major"),
         (pearson (negRoll (normalizeChroma (castVec (posRoll minor_profile 3))) 9)
        (normalizeProfile (castVec minor_profile)), pitch_names 9 ++ " Minor"),
         (pearson (negRoll (normalizeChroma (castVec (posRoll minor_profile 3))) 10)
        (normalizeProfile (castVec major_profile)), pitch_names 10 ++ " Major"),
         (pearson (negRoll (normalizeChroma (castVec (posRoll minor_profile 3))) 10)
        (normalizeProfile (castVec minor_profile)), pitch_names 10 ++ " Minor"),
         (pearson (negRoll (normalizeChroma (castVec (posRoll minor_profile 3))) 11)
        (normalizeProfile (castVec major_profile)), pitch_names 11 ++ " Major"),
         (pearson (negRoll (normalizeChroma (castVec (posRoll minor_profile 3))) 11)
        (normalizeProfile (castVec minor_profile)), pitch_names 11 ++ " Minor")] := by
  have hmid : (pearson (negRoll (normalizeChroma (castVec (posRoll minor_profile 3))) 3)
        (normalizeProfile (castVec minor_profile)), pitch_names 3 ++ " Minor")
      = ((some (1 : ℝ)), "D# Minor") := by
    rw [score_eq_one_self (posRoll minor_profile 3) 3 minor_profile minor_var_ne
        (negRoll_posRoll_same _ _),
      show pitch_names 3 ++ " Minor" = "D# Minor" from rfl]
  rw [keyCombos_expand, hmid]
  rfl

theorem minor3_head_lt :
    ∀ e ∈ [(pearson (negRoll (normalizeChroma (castVec (posRoll minor_profile 3))) 0)
        (normalizeProfile (castVec major_profile)), pitch_names 0 ++ " Major"),
       (pearson (negRoll (normalizeChroma (castVec (posRoll minor_profile 3))) 0)
        (normalizeProfile (castVec minor_profile)), pitch_names 0 ++ " Minor"),
       (pearson (negRoll (normalizeChroma (castVec (posRoll minor_profile 3))) 1)
        (normalizeProfile (castVec major_profile)), pitch_names 1 ++ " Major"),
       (pearson (negRoll (normalizeChroma (castVec (posRoll minor_profile 3))) 1)
        (normalizeProfile (castVec minor_profile)), pitch_names 1 ++ " Minor"),
       (pearson (negRoll (normalizeChroma (castVec (posRoll minor_profile 3))) 2)
        (normalizeProfile (castVec major_profile)), pitch_names 2 ++ " Major"),
       (pearson (negRoll (normalizeChroma (castVec (posRoll minor_profile 3))) 2)
        (normalizeProfile (castVec minor_profile)), pitch_names 2 ++ " Minor"),
       (pearson (negRoll (normalizeChroma (castVec (posRoll minor_profile 3))) 3)
        (normalizeProfile (castVec major_profile)), pitch_names 3 ++ " Major")],
      ∀ v, e.1 = some v → v < (1 : ℝ) := by
  intro e he v hv
  simp only [List.mem_cons, List.not_mem_nil, or_false] at he
  rcases he with rfl | rfl | rfl | rfl | rfl | rfl | rfl
  · refine score_lt_one_of_cs (posRoll minor_profile 3) 0 major_profile major_var_ne
      ?_ ?_ v hv
    · rw [negRoll_zero, scov_posRoll_self]
      exact minor_var_ne
    · rw [negRoll_zero]
      exact cs_r3_major
  · refine score_lt_one_of_cs (posRoll minor_profile 3) 0 minor_profile minor_var_ne
      ?_ ?_ v hv
    · rw [negRoll_zero, scov_posRoll_self]
      exact minor_var_ne
    · rw [negRoll_zero]
      exact cs_r3_minor
  · refine score_lt_one_of_cs (posRoll minor_profile 3) 1 major_profile major_var_ne
      ?_ ?_ v hv
    · rw [negRoll_roll3_one, scov_posRoll_self]
      exact minor_var_ne
    · rw [negRoll_roll3_one]
      exact cs_r2_major
  · refine score_lt_one_of_cs (posRoll minor_profile 3) 1 minor_profile minor_var_ne
      ?_ ?_ v hv
    · rw [negRoll_roll3_one, scov_posRoll_self]
      exact minor_var_ne
    · rw [negRoll_roll3_one]
      exact cs_r2_minor
  · refine score_lt_one_of_cs (posRoll minor_profile 3) 2 major_profile major_var_ne
      ?_ ?_ v hv
    · rw [negRoll_roll3_two, scov_posRoll_self]
      exact minor_var_ne
    · rw [negRoll_roll3_two]
      exact cs_r1_major
  · refine score_lt_one_of_cs (posRoll minor_profile 3) 2 minor_profile minor_var_ne
      ?_ ?_ v hv
    · rw [negRoll_roll3_two, scov_posRoll_self]
      exact minor_var_ne
    · rw [negRoll_roll3_two]
      exact cs_r1_minor
  · refine score_lt_one_of_cs (posRoll minor_profile 3) 3 major_profile major_var_ne
      ?_ ?_ v hv
    · rw [negRoll_posRoll_same]
      exact minor_var_ne
    · rw [negRoll_posRoll_same]
      exact cs_minor_major

theorem best_key_minor_roll3 :
    best_key (castVec (posRoll minor_profile 3)) = "D# Minor" := by
  refine best_key_first_strict_max _ _ _ 1 _ minor3_combos_decomp minor3_head_lt
    ?_ (by norm_num)
  intro e he v hv
  refine keyCombos_le_one (castVec (posRoll minor_profile 3)) e ?_ v hv
  rw [minor3_combos_decomp]
  exact List.mem_append_right _ (List.mem_cons_of_mem _ he)

theorem normalizeChroma_zero : normalizeChroma (fun _ => (0 : ℝ)) = fun _ => 0 := by
  funext i
  unfold normalizeChroma vmean vsum
  simp

theorem scov_zero : scov (fun _ => (0 : ℝ)) (fun _ => (0 : ℝ)) = 0 := by
  unfold scov vmean vsum
  simp

theorem best_key_zero : best_key (fun _ => (0 : ℝ)) = "Unknown" := by
  unfold best_key
  rw [foldl_scanStep_stable]
  intro e he v hv
  exfalso
  unfold keyCombos at he
  rw [List.mem_flatMap] at he
  obtain ⟨i, _, he⟩ := he
  simp only [List.mem_cons, List.not_mem_nil, or_false] at he
  have hz : negRoll (normalizeChroma (fun _ => (0 : ℝ))) i = fun _ => (0 : ℝ) := by
    rw [normalizeChroma_zero]
    rfl
  rcases he with rfl | rfl <;>
    rw [hz, pearson_none_left _ scov_zero] at hv <;>
    simp at hv

/-! ## Claims about the key detector -/

/-- Claim C3: the key detector returns `"C Major"` on a chroma profile equal
to the unrotated major template and `"D# Minor"` (`pitch_names 3` Minor) on
the minor template circularly rotated by 3 pitch classes; in general it
returns the label of the unique position in scan order — roots `0..11`, major
before minor at each root — whose correlation strictly exceeds every earlier
one and is not exceeded later, i.e. the strict `>` comparison makes the first
maximal correlation win. -/
theorem key_detector_best_correlation :
    best_key (castVec major_profile) = "C Major" ∧
    best_key (castVec (posRoll minor_profile 3)) = "D# Minor" ∧
    (∀ (chroma : Vec12 ℝ) (l₁ l₂ : List (Option ℝ × String)) (M : ℝ) (lab : String),
      keyCombos chroma = l₁ ++ (some M, lab) :: l₂ →
      (∀ e ∈ l₁, ∀ v, e.1 = some v → v < M) →
      (∀ e ∈ l₂, ∀ v, e.1 = some v → v ≤ M) →
      -1 < M →
      best_key chroma = lab) :=
  ⟨best_key_major, best_key_minor_roll3, best_key_first_strict_max⟩

/-- Claim C3 witness: the general first-strict-maximum clause applied at the
concrete major-template chroma reproduces `"C Major"`. -/
theorem key_detector_best_correlation_witness :
    best_key (castVec major_profile) = "C Major" := by
  refine key_detector_best_correlation.2.2 (castVec major_profile) []
    ((keyCombos (castVec major_profile)).drop 1) 1 "C Major" ?_ (by simp) ?_ (by norm_num)
  · rw [List.nil_append]
    exact major_combos_decomp
  · intro e he v hv
    exact keyCombos_le_one _ e (List.mem_of_mem_drop he) v hv

/-- Claim C9 counterexample: on the zero (silent) chroma profile, every one of
the 24 correlations is NaN (`np.corrcoef` divides by a zero standard
deviation), the strict `>` comparison never fires, and the correlation scan
itself returns the sentinel `"Unknown"` — contradicting the claim that only a
load failure produces the sentinel. -/
theorem key_correlation_zero_unknown : best_key (fun _ => (0 : ℝ)) = "Unknown" :=
  best_key_zero

/-- Claim C9 amended: the correlation logic returns `"Unknown"` not only on
load failure but also for a zero-variance chroma profile, whose correlations
are all NaN (the epsilon guard fixes the explicit normalization but
`np.corrcoef` renormalizes by the unguarded zero standard deviation); on a
profile with nonzero variance such as the major template the scan returns a
proper key label. -/
theorem key_unknown_on_zero_variance :
    best_key (fun _ => (0 : ℝ)) = "Unknown" ∧
    best_key (castVec major_profile) = "C Major" :=
  ⟨best_key_zero, best_key_major⟩

end AudioExtractor
